import Mathlib

/-!
Verification of the merfish3d-analysis evaluation and registration scripts.

The definitions below are shallow embeddings of the Python sources:

* `calculate_F1_with_radius` and its matching loop come from
  `examples/igfl_simulated_data_1round/04_calculate_F1.py` (the copy in
  `sweep_f1.py` is identical except for display rounding of the returned
  precision/recall/F1 values).  Coordinates are rational `z, y, x`
  triples; `scipy.spatial.cKDTree.query_ball_point` is modelled as the
  list of ground-truth indices whose Euclidean distance to the query is
  at most the radius (stated via squared distances), in index order.
* `sweep_loop` / `sweep_decode_params` embed the per-configuration
  try/except loop of `sweep_decode_params` in `sweep_f1.py`; the actual
  decode-and-score body is an abstract `run` function returning
  `Except`, standing for Python code that may raise.
* `igfl_abberior_registration_passes`, `zhuang_lab_registration_passes`
  and the `PipelineEvent` traces embed the call structure of
  `examples/igfl_abberior/02_register_and_deconvolve.py` and
  `examples/zhuang_lab/02_register_and_deconvolve.py`.
* `prepare_gt_coords` / `prepare_gt_gene_ids` embed the ground-truth
  table preparation in `calculate_F1`.
-/

namespace Merfish3D

/-- A `z, y, x` coordinate in microns, as handled by the evaluation code. -/
structure Coord where
  z : ℚ
  y : ℚ
  x : ℚ
deriving DecidableEq, Repr

instance : Inhabited Coord := ⟨⟨0, 0, 0⟩⟩

/-- Squared Euclidean distance between two coordinates. -/
def distSq (a b : Coord) : ℚ :=
  (a.z - b.z) ^ 2 + (a.y - b.y) ^ 2 + (a.x - b.x) ^ 2

/-- `cKDTree(gt_coords).query_ball_point(query_coord, r=radius)`: the indices of
ground-truth points within Euclidean distance `radius` (inclusive) of the query,
here produced in ascending index order. -/
def query_ball_point (gtCoords : List Coord) (q : Coord) (radius : ℚ) : List ℕ :=
  (List.range gtCoords.length).filter
    (fun i => decide (distSq (gtCoords.getD i default) q ≤ radius ^ 2))

/-- The mutable state of the matching loop in `calculate_F1_with_radius`:
`true_positives`, `false_positives` and the `matched_gt_indices` set (kept as
the list of indices in insertion order). -/
structure MatchState where
  true_positives : ℕ
  false_positives : ℕ
  matched_gt_indices : List ℕ
deriving DecidableEq, Repr

/-- The inner `for idx in nearby_indices` loop: skip already-consumed indices,
stop at the first remaining index whose ground-truth gene id equals the decoded
spot's gene id. -/
def find_match (gtGenes : List ℕ) (gene : ℕ) (matched : List ℕ) :
    List ℕ → Option ℕ
  | [] => none
  | idx :: rest =>
    if idx ∈ matched then find_match gtGenes gene matched rest
    else if gtGenes.getD idx 0 = gene then some idx
    else find_match gtGenes gene matched rest

/-- One iteration of the outer loop of `calculate_F1_with_radius`, processing a
single decoded spot. -/
def process_spot (gtCoords : List Coord) (gtGenes : List ℕ) (radius : ℚ)
    (st : MatchState) (q : Coord) (gene : ℕ) : MatchState :=
  let nearby := query_ball_point gtCoords q radius
  if nearby.isEmpty then
    { st with false_positives := st.false_positives + 1 }
  else
    match find_match gtGenes gene st.matched_gt_indices nearby with
    | some idx =>
      { st with
        true_positives := st.true_positives + 1
        matched_gt_indices := st.matched_gt_indices ++ [idx] }
    | none => { st with false_positives := st.false_positives + 1 }

/-- The full matching loop over all decoded spots, in iteration order. -/
def run_matching (gtCoords : List Coord) (gtGenes : List ℕ) (radius : ℚ)
    (spots : List (Coord × ℕ)) : MatchState :=
  spots.foldl (fun st p => process_spot gtCoords gtGenes radius st p.1 p.2)
    ⟨0, 0, []⟩

/-- The dictionary returned by `calculate_F1_with_radius`. -/
structure F1Result where
  f1_score : ℚ
  precision : ℚ
  «recall» : ℚ
  true_positives : ℕ
  false_positives : ℕ
  false_negatives : ℕ
deriving DecidableEq, Repr

/-- `calculate_F1_with_radius` from
`examples/igfl_simulated_data_1round/04_calculate_F1.py`. -/
def calculate_F1_with_radius (qCoords : List Coord) (qGenes : List ℕ)
    (gtCoords : List Coord) (gtGenes : List ℕ) (radius : ℚ) : F1Result :=
  let st := run_matching gtCoords gtGenes radius (qCoords.zip qGenes)
  let fn : ℕ := gtGenes.length - st.matched_gt_indices.length
  let precision : ℚ :=
    if 0 < st.true_positives + st.false_positives then
      (st.true_positives : ℚ) / ((st.true_positives : ℚ) + (st.false_positives : ℚ))
    else 0
  let recallVal : ℚ :=
    if 0 < st.true_positives + fn then
      (st.true_positives : ℚ) / ((st.true_positives : ℚ) + (fn : ℚ))
    else 0
  let f1 : ℚ :=
    if 0 < precision + recallVal then
      2 * precision * recallVal / (precision + recallVal)
    else 0
  ⟨f1, precision, recallVal, st.true_positives, st.false_positives, fn⟩

/-- Loop invariant of the matching loop: the consumed ground-truth indices are
pairwise distinct, the true-positive counter counts exactly the consumed
indices, and every consumed index is a valid ground-truth index. -/
def MatchInv (gtCoords : List Coord) (st : MatchState) : Prop :=
  st.matched_gt_indices.Nodup ∧
  st.true_positives = st.matched_gt_indices.length ∧
  ∀ i ∈ st.matched_gt_indices, i < gtCoords.length

/-! ### The parameter sweep of `sweep_f1.py` -/

/-- One `params` dictionary of `sweep_decode_params` (the key under which a
configuration's result is recorded); `fdr` and `min_pixels` are the constants
`0.05` and `9` in the source. -/
structure SweepConfig where
  fdr : ℚ
  min_pixels : ℕ
  mag_thresh : ℚ
  spotmap_threshold : ℚ
deriving DecidableEq, Repr

/-- What gets stored in the `results` dictionary for one configuration: either
the F1 dictionary, or `{"error": str(e)}` when the body raised. -/
inductive SweepOutcome where
  | ok (result : F1Result)
  | error (msg : String)
deriving DecidableEq, Repr

/-- The body of one sweep iteration (`decode_pixels` followed by
`calculate_F1`), wrapped in the `try/except` of `sweep_decode_params`.  The
abstract `run` stands for the decode-and-score Python code, which may raise. -/
def sweep_body (run : SweepConfig → Except String F1Result)
    (cfg : SweepConfig) : SweepOutcome :=
  match run cfg with
  | Except.ok r => SweepOutcome.ok r
  | Except.error e => SweepOutcome.error e

/-- The nested `for spotmap in spotmap_values: for mag in mag_values:` grid of
`sweep_decode_params`, in iteration order. -/
def sweep_grid (spotmap_values mag_values : List ℚ) : List SweepConfig :=
  spotmap_values.flatMap fun s =>
    mag_values.map fun m => ⟨1 / 20, 9, m, s⟩

/-- The sweep loop: accumulates the `results` dictionary (as an association
list in insertion order) and returns, alongside the final dictionary, the list
of snapshots written by `json.dump` after each configuration. -/
def sweep_loop (run : SweepConfig → Except String F1Result)
    (results : List (SweepConfig × SweepOutcome)) :
    List SweepConfig →
      List (SweepConfig × SweepOutcome) × List (List (SweepConfig × SweepOutcome))
  | [] => (results, [])
  | cfg :: rest =>
    let results_new := results ++ [(cfg, sweep_body run cfg)]
    let next := sweep_loop run results_new rest
    (next.1, results_new :: next.2)

/-- `sweep_decode_params` from `sweep_f1.py`: run the whole grid starting from
an empty `results` dictionary. -/
def sweep_decode_params (run : SweepConfig → Except String F1Result)
    (spotmap_values mag_values : List ℚ) :
    List (SweepConfig × SweepOutcome) × List (List (SweepConfig × SweepOutcome)) :=
  sweep_loop run [] (sweep_grid spotmap_values mag_values)

/-- A sample decode-and-score body used to exercise the sweep: it raises on
magnitude threshold 1 and succeeds on every other configuration. -/
def sweep_run_sample : SweepConfig → Except String F1Result :=
  fun cfg =>
    if cfg.mag_thresh = 1 then Except.error "bad threshold"
    else Except.ok ⟨0, 0, 0, 0, 0, 0⟩

/-! ### Global registration structure of the `02_register_and_deconvolve.py` scripts -/

/-- One call to `multiview_stitcher.registration.register`. -/
structure RegistrationPass where
  transform_key : String
  new_transform_key : String
  binning_z : ℕ
  binning_y : ℕ
  binning_x : ℕ
  quality_filter : Bool
deriving DecidableEq, Repr

/-- The two `registration.register` calls of
`examples/igfl_abberior/02_register_and_deconvolve.py` (lines 120-136), in
program order. -/
def igfl_abberior_registration_passes : List RegistrationPass :=
  [⟨"stage_metadata", "translation_registered_3x", 3, 9, 9, true⟩,
   ⟨"translation_registered_3x", "translation_registered", 1, 3, 3, true⟩]

/-- The single `registration.register` call of
`examples/zhuang_lab/02_register_and_deconvolve.py` (lines 125-132). -/
def zhuang_lab_registration_passes : List RegistrationPass :=
  [⟨"stage_metadata", "translation_registered", 3, 3, 3, true⟩]

/-! ### Pipeline-ordering traces of the registration scripts -/

/-- The externally observable steps taken by the registration scripts, in
program order. -/
inductive PipelineEvent where
  | register_all_tiles
  | set_stage_flag (flag : String) (value : Bool)
  | load_local_registered_image (tile : ℕ)
  | registration_step (transform_key new_transform_key : String)
  | save_global_coord_xforms (tile : ℕ)
  | fuse_tiles
  | save_global_fused_image
deriving DecidableEq, Repr

/-- The trace of `local_register_data`: `register_all_tiles()` followed by
setting the `LocalRegistered` datastore flag. -/
def local_register_events : List PipelineEvent :=
  [PipelineEvent.register_all_tiles,
   PipelineEvent.set_stage_flag "LocalRegistered" true]

/-- The trace of `global_register_data`: load every tile's locally registered
image, run the registration passes, save every tile's global transform, fuse
and save the fused image, then set the `GlobalRegistered` and `Fused` flags. -/
def global_register_events (num_tiles : ℕ)
    (passes : List RegistrationPass) : List PipelineEvent :=
  ((List.range num_tiles).map PipelineEvent.load_local_registered_image) ++
  (passes.map fun p =>
    PipelineEvent.registration_step p.transform_key p.new_transform_key) ++
  ((List.range num_tiles).map PipelineEvent.save_global_coord_xforms) ++
  [PipelineEvent.fuse_tiles, PipelineEvent.save_global_fused_image,
   PipelineEvent.set_stage_flag "GlobalRegistered" true,
   PipelineEvent.set_stage_flag "Fused" true]

/-- The `__main__` of `examples/igfl_abberior/02_register_and_deconvolve.py`:
`local_register_data(root_path)` then `global_register_data(root_path)`. -/
def igfl_abberior_main (num_tiles : ℕ) : List PipelineEvent :=
  local_register_events ++
    global_register_events num_tiles igfl_abberior_registration_passes

/-- The `__main__` of `examples/zhuang_lab/02_register_and_deconvolve.py` as
committed: only `global_register_data` is invoked (the `local_register_data`
call is commented out because that dataset arrives pre-registered). -/
def zhuang_lab_main (num_tiles : ℕ) : List PipelineEvent :=
  global_register_events num_tiles zhuang_lab_registration_passes

/-- Steps belonging to the global registration stage. -/
def isGlobalStep : PipelineEvent → Bool
  | PipelineEvent.load_local_registered_image _ => true
  | PipelineEvent.registration_step _ _ => true
  | PipelineEvent.save_global_coord_xforms _ => true
  | PipelineEvent.fuse_tiles => true
  | PipelineEvent.save_global_fused_image => true
  | PipelineEvent.set_stage_flag f _ => f == "GlobalRegistered" || f == "Fused"
  | _ => false

/-- Steps performing cross-tile registration or fusion. -/
def isRegistrationOrFusion : PipelineEvent → Bool
  | PipelineEvent.registration_step _ _ => true
  | PipelineEvent.fuse_tiles => true
  | _ => false

/-- Spec predicate: local registration of all tiles completes
(`register_all_tiles` returns and `LocalRegistered` is set) strictly before any
global-registration step of the trace. -/
def local_before_global (t : List PipelineEvent) : Prop :=
  ∃ pre post, t = pre ++ post ∧
    PipelineEvent.register_all_tiles ∈ pre ∧
    PipelineEvent.set_stage_flag "LocalRegistered" true ∈ pre ∧
    ∀ e ∈ pre, isGlobalStep e = false

/-- Spec predicate: every tile's locally registered image is loaded before any
cross-tile registration or fusion step. -/
def loads_before_registration (t : List PipelineEvent) (num_tiles : ℕ) : Prop :=
  ∃ pre post, t = pre ++ post ∧
    (∀ tile, tile < num_tiles →
      PipelineEvent.load_local_registered_image tile ∈ pre) ∧
    ∀ e ∈ pre, isRegistrationOrFusion e = false

/-- Spec predicate: the `GlobalRegistered` and `Fused` flags are set only after
fusion has completed and the fused image has been saved. -/
def flags_after_fusion (t : List PipelineEvent) : Prop :=
  ∃ pre post, t = pre ++ post ∧
    PipelineEvent.fuse_tiles ∈ pre ∧
    PipelineEvent.save_global_fused_image ∈ pre ∧
    PipelineEvent.set_stage_flag "GlobalRegistered" true ∈ post ∧
    PipelineEvent.set_stage_flag "Fused" true ∈ post

/-- The conjunction claimed for every pipeline run. -/
def pipeline_run_ordering (t : List PipelineEvent) (num_tiles : ℕ) : Prop :=
  local_before_global t ∧ loads_before_registration t num_tiles ∧
    flags_after_fusion t

/-- Spec predicate for the shape of the global registration stage list:
two sequential passes, the first at 9x lateral binning seeded from the
stage-position prior, the second at 3x lateral binning seeded from the first
pass's resulting transform key. -/
def two_stage_coarse_to_fine (passes : List RegistrationPass) : Prop :=
  ∃ p1 p2, passes = [p1, p2] ∧
    p1.transform_key = "stage_metadata" ∧
    p1.binning_y = 9 ∧ p1.binning_x = 9 ∧
    p2.transform_key = p1.new_transform_key ∧
    p2.binning_y = 3 ∧ p2.binning_x = 3

/-! ### Ground-truth preparation in `calculate_F1` -/

/-- One row of the tabular ground-truth file: the `Z`, `Y`, `X` columns (voxel
indices) and the integer `Gene Label` column. -/
structure GroundTruthRow where
  gt_z : ℚ
  gt_y : ℚ
  gt_x : ℚ
  gene_label : ℕ
deriving DecidableEq, Repr

/-- `gt_spots[['Z', 'Y', 'X']].to_numpy()`. -/
def extract_gt_coords (rows : List GroundTruthRow) : List Coord :=
  rows.map fun r => ⟨r.gt_z, r.gt_y, r.gt_x⟩

/-- `gt_coords[:, 0] *= datastore.voxel_size_zyx_um[0]`. -/
def scale_column_z (v : ℚ) (cs : List Coord) : List Coord :=
  cs.map fun c => { c with z := c.z * v }

/-- `gt_coords[:, 1] *= datastore.voxel_size_zyx_um[1]`. -/
def scale_column_y (v : ℚ) (cs : List Coord) : List Coord :=
  cs.map fun c => { c with y := c.y * v }

/-- `gt_coords[:, 2] *= datastore.voxel_size_zyx_um[2]`. -/
def scale_column_x (v : ℚ) (cs : List Coord) : List Coord :=
  cs.map fun c => { c with x := c.x * v }

/-- `gt_coords_offset = gt_coords + offset`, with `offset = [0, 0, 0]`. -/
def add_offset (o : Coord) (cs : List Coord) : List Coord :=
  cs.map fun c => ⟨c.z + o.z, c.y + o.y, c.x + o.x⟩

/-- The ground-truth coordinate preparation of `calculate_F1`: scale the `Z`,
`Y`, `X` voxel-index columns by the corresponding components of
`voxel_size_zyx_um`, then add the zero offset. -/
def prepare_gt_coords (voxel_size_zyx_um : Coord)
    (rows : List GroundTruthRow) : List Coord :=
  add_offset ⟨0, 0, 0⟩
    (scale_column_x voxel_size_zyx_um.x
      (scale_column_y voxel_size_zyx_um.y
        (scale_column_z voxel_size_zyx_um.z (extract_gt_coords rows))))

/-- `gt_gene_ids = gene_ids[gt_spots['Gene Label'].to_numpy(dtype=int)]`:
ground-truth labels are mapped through the parsed codebook's gene-id list. -/
def prepare_gt_gene_ids (gene_ids : List ℕ) (rows : List GroundTruthRow) :
    List ℕ :=
  rows.map fun r => gene_ids.getD r.gene_label 0

/-- `calculate_F1` from `04_calculate_F1.py`, after the datastore and CSV reads:
prepare the ground-truth table and hand everything to
`calculate_F1_with_radius`. -/
def calculate_F1 (gene_ids : List ℕ) (voxel_size_zyx_um : Coord)
    (qCoords : List Coord) (qGenes : List ℕ)
    (gt_rows : List GroundTruthRow) (search_radius : ℚ) : F1Result :=
  calculate_F1_with_radius qCoords qGenes
    (prepare_gt_coords voxel_size_zyx_um gt_rows)
    (prepare_gt_gene_ids gene_ids gt_rows)
    search_radius

/-! ## Theorems -/

/-- Membership in the ball query is exactly being a valid index within the
search radius. -/
theorem mem_query_ball_point {gtCoords : List Coord} {q : Coord} {radius : ℚ}
    {i : ℕ} :
    i ∈ query_ball_point gtCoords q radius ↔
      i < gtCoords.length ∧ distSq (gtCoords.getD i default) q ≤ radius ^ 2 := by
  simp [query_ball_point, List.mem_filter, List.mem_range]

/-- A successful inner-loop search returns an index that is not yet consumed,
carries the decoded spot's gene id, and is the first such candidate: every
earlier candidate is either already consumed or has a different gene id. -/
theorem find_match_spec {gtGenes : List ℕ} {gene : ℕ} {matched : List ℕ}
    {l : List ℕ} {idx : ℕ}
    (h : find_match gtGenes gene matched l = some idx) :
    idx ∉ matched ∧ gtGenes.getD idx 0 = gene ∧
      ∃ pre post, l = pre ++ idx :: post ∧
        ∀ j ∈ pre, j ∈ matched ∨ gtGenes.getD j 0 ≠ gene := by
  induction l with
  | nil => simp [find_match] at h
  | cons a t ih =>
    by_cases ha : a ∈ matched
    · rw [find_match, if_pos ha] at h
      obtain ⟨h1, h2, pre, post, hsplit, hpre⟩ := ih h
      refine ⟨h1, h2, a :: pre, post, by simp [hsplit], ?_⟩
      intro j hj
      rcases List.mem_cons.1 hj with rfl | hj
      · exact Or.inl ha
      · exact hpre j hj
    · by_cases hg : gtGenes.getD a 0 = gene
      · rw [find_match, if_neg ha, if_pos hg] at h
        cases h
        exact ⟨ha, hg, [], t, rfl, by simp⟩
      · rw [find_match, if_neg ha, if_neg hg] at h
        obtain ⟨h1, h2, pre, post, hsplit, hpre⟩ := ih h
        refine ⟨h1, h2, a :: pre, post, by simp [hsplit], ?_⟩
        intro j hj
        rcases List.mem_cons.1 hj with rfl | hj
        · exact Or.inr hg
        · exact hpre j hj

/-- The inner-loop search fails when every unconsumed candidate has a
different gene id. -/
theorem find_match_eq_none {gtGenes : List ℕ} {gene : ℕ} {matched : List ℕ}
    {l : List ℕ}
    (h : ∀ idx ∈ l, idx ∉ matched → gtGenes.getD idx 0 ≠ gene) :
    find_match gtGenes gene matched l = none := by
  induction l with
  | nil => rfl
  | cons a t ih =>
    rw [find_match]
    by_cases ha : a ∈ matched
    · rw [if_pos ha]
      exact ih fun idx hi => h idx (List.mem_cons_of_mem _ hi)
    · rw [if_neg ha, if_neg (h a (List.mem_cons_self a t) ha)]
      exact ih fun idx hi => h idx (List.mem_cons_of_mem _ hi)

/-- Each decoded spot either becomes a false positive (state otherwise
untouched) or a true positive consuming exactly the index found by the inner
loop. -/
theorem process_spot_cases (gtCoords : List Coord) (gtGenes : List ℕ)
    (radius : ℚ) (st : MatchState) (q : Coord) (gene : ℕ) :
    process_spot gtCoords gtGenes radius st q gene =
        { st with false_positives := st.false_positives + 1 } ∨
      ∃ idx,
        find_match gtGenes gene st.matched_gt_indices
            (query_ball_point gtCoords q radius) = some idx ∧
        process_spot gtCoords gtGenes radius st q gene =
          { st with
            true_positives := st.true_positives + 1
            matched_gt_indices := st.matched_gt_indices ++ [idx] } := by
  rw [process_spot]
  by_cases he : (query_ball_point gtCoords q radius).isEmpty
  · simp [he]
  · cases hfm : find_match gtGenes gene st.matched_gt_indices
      (query_ball_point gtCoords q radius) with
    | none => left; simp [he, hfm]
    | some idx => right; exact ⟨idx, rfl, by simp [he]⟩

/-- Processing one decoded spot preserves the matching invariant and
classifies the spot exactly once. -/
theorem process_spot_inv (gtCoords : List Coord) (gtGenes : List ℕ)
    (radius : ℚ) (st : MatchState) (q : Coord) (gene : ℕ)
    (h : MatchInv gtCoords st) :
    MatchInv gtCoords (process_spot gtCoords gtGenes radius st q gene) ∧
      (process_spot gtCoords gtGenes radius st q gene).true_positives +
          (process_spot gtCoords gtGenes radius st q gene).false_positives =
        st.true_positives + st.false_positives + 1 := by
  obtain ⟨hnd, htp, hlt⟩ := h
  rcases process_spot_cases gtCoords gtGenes radius st q gene with heq | ⟨idx, hfm, heq⟩
  · rw [heq]
    refine ⟨⟨hnd, htp, hlt⟩, ?_⟩
    show st.true_positives + (st.false_positives + 1) =
      st.true_positives + st.false_positives + 1
    omega
  · obtain ⟨hnotmem, _, _⟩ := find_match_spec hfm
    have hidx : idx ∈ query_ball_point gtCoords q radius := by
      obtain ⟨_, _, pre, post, hsplit, _⟩ := find_match_spec hfm
      rw [hsplit]
      exact List.mem_append.2 (Or.inr (List.mem_cons_self idx post))
    have hidxlt : idx < gtCoords.length := (mem_query_ball_point.1 hidx).1
    rw [heq]
    refine ⟨⟨?_, ?_, ?_⟩, ?_⟩
    · simp [List.nodup_append, hnd, hnotmem]
    · simp [htp]
    · intro i hi
      rcases List.mem_append.1 hi with hi | hi
      · exact hlt i hi
      · rw [List.mem_singleton.1 hi]; exact hidxlt
    · show st.true_positives + 1 + st.false_positives =
        st.true_positives + st.false_positives + 1
      omega

/-- The matching loop preserves the invariant from any starting state and
classifies each processed spot exactly once. -/
theorem run_matching_loop_inv (gtCoords : List Coord) (gtGenes : List ℕ)
    (radius : ℚ) :
    ∀ (spots : List (Coord × ℕ)) (st : MatchState), MatchInv gtCoords st →
      MatchInv gtCoords
        (spots.foldl
          (fun st p => process_spot gtCoords gtGenes radius st p.1 p.2) st) ∧
      (spots.foldl
          (fun st p => process_spot gtCoords gtGenes radius st p.1 p.2)
          st).true_positives +
        (spots.foldl
          (fun st p => process_spot gtCoords gtGenes radius st p.1 p.2)
          st).false_positives =
        st.true_positives + st.false_positives + spots.length := by
  intro spots
  induction spots with
  | nil => intro st hst; exact ⟨hst, by simp⟩
  | cons p t ih =>
    intro st hst
    obtain ⟨h1, h2⟩ :=
      process_spot_inv gtCoords gtGenes radius st p.1 p.2 hst
    obtain ⟨h3, h4⟩ := ih _ h1
    refine ⟨by simpa using h3, ?_⟩
    simp only [List.foldl_cons, List.length_cons]
    rw [h4, h2]
    omega

/-- The full matching run satisfies the invariant and classifies every decoded
spot exactly once. -/
theorem run_matching_inv (gtCoords : List Coord) (gtGenes : List ℕ)
    (radius : ℚ) (spots : List (Coord × ℕ)) :
    MatchInv gtCoords (run_matching gtCoords gtGenes radius spots) ∧
      (run_matching gtCoords gtGenes radius spots).true_positives +
          (run_matching gtCoords gtGenes radius spots).false_positives =
        spots.length := by
  have h := run_matching_loop_inv gtCoords gtGenes radius spots ⟨0, 0, []⟩
    ⟨List.nodup_nil, rfl, by simp⟩
  exact ⟨h.1, by simpa using h.2⟩

/-- Claim C1: in the evaluation matching of `calculate_F1_with_radius`,
decoded spots are processed in iteration order and each ground-truth point is
consumed by at most one decoded spot: the final `matched_gt_indices` list is
duplicate-free, the true-positive count equals the number of consumed indices
(so no ground-truth index is counted as a true positive twice), and the inner
search matches a decoded spot to the first not-yet-consumed candidate within
radius carrying the same gene id. -/
theorem ground_truth_consumed_at_most_once
    (qCoords : List Coord) (qGenes : List ℕ) (gtCoords : List Coord)
    (gtGenes : List ℕ) (radius : ℚ) :
    (run_matching gtCoords gtGenes radius
        (qCoords.zip qGenes)).matched_gt_indices.Nodup ∧
    (run_matching gtCoords gtGenes radius
        (qCoords.zip qGenes)).true_positives =
      (run_matching gtCoords gtGenes radius
        (qCoords.zip qGenes)).matched_gt_indices.length ∧
    ∀ gene matched nearby idx,
      find_match gtGenes gene matched nearby = some idx →
        idx ∉ matched ∧ gtGenes.getD idx 0 = gene ∧
        ∃ pre post, nearby = pre ++ idx :: post ∧
          ∀ j ∈ pre, j ∈ matched ∨ gtGenes.getD j 0 ≠ gene := by
  obtain ⟨⟨hnd, htp, _⟩, _⟩ :=
    run_matching_inv gtCoords gtGenes radius (qCoords.zip qGenes)
  exact ⟨hnd, htp, fun gene matched nearby idx h => find_match_spec h⟩

theorem ground_truth_consumed_at_most_once_witness :
    (run_matching [(⟨0, 0, 0⟩ : Coord)] [7] 1
        ([(⟨0, 0, 0⟩ : Coord)].zip [7])).matched_gt_indices.Nodup ∧
    ((0 : ℕ) ∉ ([] : List ℕ) ∧ [7].getD 0 0 = 7 ∧
      ∃ pre post, [0] = pre ++ 0 :: post ∧
        ∀ j ∈ pre, j ∈ ([] : List ℕ) ∨ [7].getD j 0 ≠ 7) := by
  have h := ground_truth_consumed_at_most_once [⟨0, 0, 0⟩] [7] [⟨0, 0, 0⟩] [7] 1
  exact ⟨h.1, h.2.2 7 [] [0] 0 rfl⟩

/-- Claim C3: a decoded spot farther than the radius from every ground-truth
point of the same gene is counted as a false positive (and consumes nothing),
even when ground-truth points of other genes lie within the radius. -/
theorem far_from_all_same_gene_gt_is_false_positive
    (gtCoords : List Coord) (gtGenes : List ℕ) (radius : ℚ)
    (st : MatchState) (q : Coord) (gene : ℕ)
    (hfar : ∀ i, i < gtCoords.length → gtGenes.getD i 0 = gene →
      ¬ distSq (gtCoords.getD i default) q ≤ radius ^ 2) :
    process_spot gtCoords gtGenes radius st q gene =
      { st with false_positives := st.false_positives + 1 } := by
  have hnone : find_match gtGenes gene st.matched_gt_indices
      (query_ball_point gtCoords q radius) = none := by
    apply find_match_eq_none
    intro idx hidx _ hg
    obtain ⟨hlt, hdist⟩ := mem_query_ball_point.1 hidx
    exact hfar idx hlt hg hdist
  rw [process_spot]
  by_cases he : (query_ball_point gtCoords q radius).isEmpty
  · simp [he]
  · simp [he, hnone]

theorem far_from_all_same_gene_gt_is_false_positive_witness :
    process_spot [⟨0, 0, 0⟩, ⟨10, 0, 0⟩] [1, 0] 1 ⟨0, 0, []⟩ ⟨0, 0, 0⟩ 0 =
      { (⟨0, 0, []⟩ : MatchState) with
        false_positives := (⟨0, 0, []⟩ : MatchState).false_positives + 1 } := by
  apply far_from_all_same_gene_gt_is_false_positive
  intro i hlt hg
  simp only [List.length_cons, List.length_nil] at hlt
  interval_cases i
  · simp at hg
  · simp only [List.getD, distSq]
    norm_num

/-- Claim C2: precision is `TP/(TP+FP)`, recall is `TP/(TP+FN)`, F1 is
`2*precision*recall/(precision+recall)`, and each of the three is exactly 0
when its defining denominator is 0 — the guarded definition never divides by
zero. -/
theorem precision_recall_f1_zero_denominator_safe
    (qCoords : List Coord) (qGenes : List ℕ) (gtCoords : List Coord)
    (gtGenes : List ℕ) (radius : ℚ) (res : F1Result)
    (hres : res = calculate_F1_with_radius qCoords qGenes gtCoords gtGenes radius) :
    (0 < res.true_positives + res.false_positives →
      res.precision = (res.true_positives : ℚ) /
        ((res.true_positives : ℚ) + (res.false_positives : ℚ))) ∧
    (res.true_positives + res.false_positives = 0 → res.precision = 0) ∧
    (0 < res.true_positives + res.false_negatives →
      res.«recall» = (res.true_positives : ℚ) /
        ((res.true_positives : ℚ) + (res.false_negatives : ℚ))) ∧
    (res.true_positives + res.false_negatives = 0 → res.«recall» = 0) ∧
    (0 < res.precision + res.«recall» →
      res.f1_score = 2 * res.precision * res.«recall» /
        (res.precision + res.«recall»)) ∧
    (res.precision + res.«recall» = 0 → res.f1_score = 0) := by
  subst hres
  simp only [calculate_F1_with_radius]
  refine ⟨?_, ?_, ?_, ?_, ?_, ?_⟩
  · intro h; rw [if_pos h]
  · intro h; rw [if_neg (by omega)]
  · intro h; rw [if_pos h]
  · intro h; rw [if_neg (by omega)]
  · intro h; rw [if_pos h]
  · intro h; rw [if_neg (by rw [h]; exact lt_irrefl 0)]

theorem precision_recall_f1_zero_denominator_safe_witness :
    ((calculate_F1_with_radius [(⟨0, 0, 0⟩ : Coord)] [0]
        [(⟨0, 0, 0⟩ : Coord)] [0] 1).precision =
      ((calculate_F1_with_radius [(⟨0, 0, 0⟩ : Coord)] [0]
          [(⟨0, 0, 0⟩ : Coord)] [0] 1).true_positives : ℚ) /
        (((calculate_F1_with_radius [(⟨0, 0, 0⟩ : Coord)] [0]
            [(⟨0, 0, 0⟩ : Coord)] [0] 1).true_positives : ℚ) +
          ((calculate_F1_with_radius [(⟨0, 0, 0⟩ : Coord)] [0]
            [(⟨0, 0, 0⟩ : Coord)] [0] 1).false_positives : ℚ))) ∧
    (calculate_F1_with_radius ([] : List Coord) [] [] [] 1).precision = 0 ∧
    (calculate_F1_with_radius ([] : List Coord) [] [] [] 1).«recall» = 0 ∧
    (calculate_F1_with_radius ([] : List Coord) [] [] [] 1).f1_score = 0 := by
  have hunit : calculate_F1_with_radius [(⟨0, 0, 0⟩ : Coord)] [0]
      [(⟨0, 0, 0⟩ : Coord)] [0] 1 = ⟨1, 1, 1, 1, 0, 0⟩ := by
    simp [calculate_F1_with_radius, run_matching, process_spot,
      query_ball_point, find_match, distSq, List.filter, List.range,
      List.range.loop]
    norm_num
  have h1 := precision_recall_f1_zero_denominator_safe
    [(⟨0, 0, 0⟩ : Coord)] [0] [(⟨0, 0, 0⟩ : Coord)] [0] 1 _ rfl
  have h2 := precision_recall_f1_zero_denominator_safe
    ([] : List Coord) [] [] [] 1 _ rfl
  refine ⟨h1.1 (by rw [hunit]; norm_num), h2.2.1 rfl, h2.2.2.2.1 rfl,
    h2.2.2.2.2.2 ?_⟩
  rw [h2.2.1 rfl, h2.2.2.2.1 rfl]
  norm_num

/-- Claim C5: a single decoded spot at the origin against a single ground-truth
spot at the origin with the same gene id and radius 1 yields one true positive,
no false positives, no false negatives, and F1 (with precision and recall)
equal to 1. -/
theorem unit_match_gives_perfect_scores (g : ℕ) :
    calculate_F1_with_radius [⟨0, 0, 0⟩] [g] [⟨0, 0, 0⟩] [g] 1 =
      ⟨1, 1, 1, 1, 0, 0⟩ := by
  simp [calculate_F1_with_radius, run_matching, process_spot, query_ball_point,
    find_match, distSq, List.filter, List.range, List.range.loop]
  norm_num

/-- Among the indices `0, ..., n-1`, those lying in a duplicate-free list `m`
of indices all below `n` number exactly `m.length`. -/
theorem length_filter_mem_range {n : ℕ} {m : List ℕ} (hm : m.Nodup)
    (hsub : ∀ i ∈ m, i < n) :
    ((List.range n).filter (fun i => decide (i ∈ m))).length = m.length := by
  have h1 : ((List.range n).filter (fun i => decide (i ∈ m))).Nodup :=
    (List.nodup_range n).filter _
  have h2 : ((List.range n).filter (fun i => decide (i ∈ m))).toFinset =
      m.toFinset := by
    ext a
    simp only [List.mem_toFinset, List.mem_filter, List.mem_range,
      decide_eq_true_eq]
    exact ⟨fun h => h.2, fun h => ⟨hsub a h, h⟩⟩
  calc ((List.range n).filter (fun i => decide (i ∈ m))).length
      = ((List.range n).filter (fun i => decide (i ∈ m))).toFinset.card :=
        (List.toFinset_card_of_nodup h1).symm
    _ = m.toFinset.card := by rw [h2]
    _ = m.length := List.toFinset_card_of_nodup hm

/-- Among the indices `0, ..., n-1`, those missing from a duplicate-free list
`m` of indices all below `n` number exactly `n - m.length`. -/
theorem length_filter_not_mem_range {n : ℕ} {m : List ℕ} (hm : m.Nodup)
    (hsub : ∀ i ∈ m, i < n) :
    ((List.range n).filter (fun i => decide (i ∉ m))).length = n - m.length := by
  have hsplit :=
    List.length_eq_countP_add_countP (fun i => decide (i ∈ m)) (List.range n)
  rw [List.length_range] at hsplit
  rw [List.countP_eq_length_filter, List.countP_eq_length_filter,
    length_filter_mem_range hm hsub] at hsplit
  have hfun : (fun a => decide ¬(decide (a ∈ m) = true)) =
      (fun i => decide (i ∉ m)) := by
    funext a; simp
  rw [hfun] at hsplit
  omega

/-- Claim C4: after all decoded spots are processed, the false-negative count
equals the number of ground-truth points minus the number of consumed
ground-truth points, and it counts exactly the unconsumed ground-truth
indices. -/
theorem false_negatives_count_unconsumed_ground_truth
    (qCoords : List Coord) (qGenes : List ℕ) (gtCoords : List Coord)
    (gtGenes : List ℕ) (radius : ℚ)
    (hlen : gtCoords.length = gtGenes.length) :
    (calculate_F1_with_radius qCoords qGenes gtCoords gtGenes
        radius).false_negatives =
      gtGenes.length -
        (run_matching gtCoords gtGenes radius
          (qCoords.zip qGenes)).matched_gt_indices.length ∧
    (calculate_F1_with_radius qCoords qGenes gtCoords gtGenes
        radius).false_negatives =
      ((List.range gtGenes.length).filter
        (fun i => decide (i ∉ (run_matching gtCoords gtGenes radius
          (qCoords.zip qGenes)).matched_gt_indices))).length := by
  obtain ⟨⟨hnd, _, hlt⟩, _⟩ :=
    run_matching_inv gtCoords gtGenes radius (qCoords.zip qGenes)
  refine ⟨rfl, ?_⟩
  rw [length_filter_not_mem_range hnd (fun i hi => hlen ▸ hlt i hi)]
  rfl

theorem false_negatives_count_unconsumed_ground_truth_witness :
    (calculate_F1_with_radius [(⟨0, 0, 0⟩ : Coord)] [0]
        [⟨0, 0, 0⟩, ⟨5, 5, 5⟩] [0, 3] 1).false_negatives =
      [0, 3].length -
        (run_matching [(⟨0, 0, 0⟩ : Coord), ⟨5, 5, 5⟩] [0, 3] 1
          ([(⟨0, 0, 0⟩ : Coord)].zip [0])).matched_gt_indices.length ∧
    (calculate_F1_with_radius [(⟨0, 0, 0⟩ : Coord)] [0]
        [⟨0, 0, 0⟩, ⟨5, 5, 5⟩] [0, 3] 1).false_negatives =
      ((List.range [0, 3].length).filter
        (fun i => decide (i ∉ (run_matching [(⟨0, 0, 0⟩ : Coord), ⟨5, 5, 5⟩]
          [0, 3] 1
          ([(⟨0, 0, 0⟩ : Coord)].zip [0])).matched_gt_indices))).length :=
  false_negatives_count_unconsumed_ground_truth
    [⟨0, 0, 0⟩] [0] [⟨0, 0, 0⟩, ⟨5, 5, 5⟩] [0, 3] 1 rfl

/-- Claim C10: true positives plus false positives equals the number of decoded
spots, true positives plus false negatives equals the number of ground-truth
spots, and precision, recall and F1 all lie in `[0, 1]`. -/
theorem counts_partition_and_metrics_bounded
    (qCoords : List Coord) (qGenes : List ℕ) (gtCoords : List Coord)
    (gtGenes : List ℕ) (radius : ℚ) (res : F1Result)
    (hq : qCoords.length = qGenes.length)
    (hgt : gtCoords.length = gtGenes.length)
    (hres : res = calculate_F1_with_radius qCoords qGenes gtCoords gtGenes
      radius) :
    res.true_positives + res.false_positives = qCoords.length ∧
    res.true_positives + res.false_negatives = gtGenes.length ∧
    0 ≤ res.precision ∧ res.precision ≤ 1 ∧
    0 ≤ res.«recall» ∧ res.«recall» ≤ 1 ∧
    0 ≤ res.f1_score ∧ res.f1_score ≤ 1 := by
  subst hres
  simp only [calculate_F1_with_radius]
  obtain ⟨⟨hnd, htp, hlt⟩, hcount⟩ :=
    run_matching_inv gtCoords gtGenes radius (qCoords.zip qGenes)
  set st := run_matching gtCoords gtGenes radius (qCoords.zip qGenes) with hst
  have hmlen : st.matched_gt_indices.length ≤ gtGenes.length := by
    have hcard : st.matched_gt_indices.toFinset.card =
        st.matched_gt_indices.length := List.toFinset_card_of_nodup hnd
    have hsubset : st.matched_gt_indices.toFinset ⊆
        Finset.range gtGenes.length := by
      intro i hi
      simp only [List.mem_toFinset] at hi
      simp only [Finset.mem_range]
      exact hgt ▸ hlt i hi
    calc st.matched_gt_indices.length
        = st.matched_gt_indices.toFinset.card := hcard.symm
      _ ≤ (Finset.range gtGenes.length).card := Finset.card_le_card hsubset
      _ = gtGenes.length := Finset.card_range _
  have hzip : (qCoords.zip qGenes).length = qCoords.length := by
    rw [List.length_zip, hq, min_self]
  have htpfp : st.true_positives + st.false_positives = qCoords.length := by
    rw [hcount, hzip]
  have hprec :
      0 ≤ (if 0 < st.true_positives + st.false_positives then
          (st.true_positives : ℚ) /
            ((st.true_positives : ℚ) + (st.false_positives : ℚ))
        else 0) ∧
      (if 0 < st.true_positives + st.false_positives then
          (st.true_positives : ℚ) /
            ((st.true_positives : ℚ) + (st.false_positives : ℚ))
        else 0) ≤ 1 := by
    split_ifs with h
    · refine ⟨by positivity, ?_⟩
      have hden : (0 : ℚ) < (st.true_positives : ℚ) + (st.false_positives : ℚ) := by
        exact_mod_cast h
      rw [div_le_one hden]
      have : (0 : ℚ) ≤ (st.false_positives : ℚ) := by positivity
      linarith
    · norm_num
  have hrec :
      0 ≤ (if 0 < st.true_positives +
            (gtGenes.length - st.matched_gt_indices.length) then
          (st.true_positives : ℚ) /
            ((st.true_positives : ℚ) +
              ((gtGenes.length - st.matched_gt_indices.length : ℕ) : ℚ))
        else 0) ∧
      (if 0 < st.true_positives +
            (gtGenes.length - st.matched_gt_indices.length) then
          (st.true_positives : ℚ) /
            ((st.true_positives : ℚ) +
              ((gtGenes.length - st.matched_gt_indices.length : ℕ) : ℚ))
        else 0) ≤ 1 := by
    split_ifs with h
    · refine ⟨by positivity, ?_⟩
      have hden : (0 : ℚ) < (st.true_positives : ℚ) +
          ((gtGenes.length - st.matched_gt_indices.length : ℕ) : ℚ) := by
        exact_mod_cast h
      rw [div_le_one hden]
      have : (0 : ℚ) ≤
          ((gtGenes.length - st.matched_gt_indices.length : ℕ) : ℚ) := by
        positivity
      linarith
    · norm_num
  refine ⟨htpfp, by omega, hprec.1, hprec.2, hrec.1, hrec.2, ?_, ?_⟩
  all_goals
    set p := (if 0 < st.true_positives + st.false_positives then
        (st.true_positives : ℚ) /
          ((st.true_positives : ℚ) + (st.false_positives : ℚ))
      else 0) with hp
    set r := (if 0 < st.true_positives +
          (gtGenes.length - st.matched_gt_indices.length) then
        (st.true_positives : ℚ) /
          ((st.true_positives : ℚ) +
            ((gtGenes.length - st.matched_gt_indices.length : ℕ) : ℚ))
      else 0) with hr
  · split_ifs with h
    · exact div_nonneg (by nlinarith [hprec.1, hrec.1]) (le_of_lt h)
    · norm_num
  · split_ifs with h
    · rw [div_le_one h]
      nlinarith [hprec.1, hprec.2, hrec.1, hrec.2]
    · norm_num

theorem counts_partition_and_metrics_bounded_witness :
    (calculate_F1_with_radius [(⟨0, 0, 0⟩ : Coord)] [0]
        [(⟨0, 0, 0⟩ : Coord)] [0] 1).true_positives +
      (calculate_F1_with_radius [(⟨0, 0, 0⟩ : Coord)] [0]
        [(⟨0, 0, 0⟩ : Coord)] [0] 1).false_positives =
      [(⟨0, 0, 0⟩ : Coord)].length ∧
    (calculate_F1_with_radius [(⟨0, 0, 0⟩ : Coord)] [0]
        [(⟨0, 0, 0⟩ : Coord)] [0] 1).true_positives +
      (calculate_F1_with_radius [(⟨0, 0, 0⟩ : Coord)] [0]
        [(⟨0, 0, 0⟩ : Coord)] [0] 1).false_negatives = [0].length ∧
    0 ≤ (calculate_F1_with_radius [(⟨0, 0, 0⟩ : Coord)] [0]
        [(⟨0, 0, 0⟩ : Coord)] [0] 1).precision ∧
    (calculate_F1_with_radius [(⟨0, 0, 0⟩ : Coord)] [0]
        [(⟨0, 0, 0⟩ : Coord)] [0] 1).precision ≤ 1 ∧
    0 ≤ (calculate_F1_with_radius [(⟨0, 0, 0⟩ : Coord)] [0]
        [(⟨0, 0, 0⟩ : Coord)] [0] 1).«recall» ∧
    (calculate_F1_with_radius [(⟨0, 0, 0⟩ : Coord)] [0]
        [(⟨0, 0, 0⟩ : Coord)] [0] 1).«recall» ≤ 1 ∧
    0 ≤ (calculate_F1_with_radius [(⟨0, 0, 0⟩ : Coord)] [0]
        [(⟨0, 0, 0⟩ : Coord)] [0] 1).f1_score ∧
    (calculate_F1_with_radius [(⟨0, 0, 0⟩ : Coord)] [0]
        [(⟨0, 0, 0⟩ : Coord)] [0] 1).f1_score ≤ 1 :=
  counts_partition_and_metrics_bounded [⟨0, 0, 0⟩] [0] [⟨0, 0, 0⟩] [0] 1 _
    rfl rfl rfl

/-- The sweep loop, started from any accumulated results: the final results
append one outcome per configuration in order, and a snapshot is persisted
after every configuration, containing exactly the results so far. -/
theorem sweep_loop_spec (run : SweepConfig → Except String F1Result) :
    ∀ (configs : List SweepConfig) (acc : List (SweepConfig × SweepOutcome)),
      (sweep_loop run acc configs).1 =
        acc ++ configs.map (fun c => (c, sweep_body run c)) ∧
      (sweep_loop run acc configs).2.length = configs.length ∧
      ∀ k, k < configs.length →
        (sweep_loop run acc configs).2.getD k [] =
          acc ++ (configs.take (k + 1)).map (fun c => (c, sweep_body run c)) := by
  intro configs
  induction configs with
  | nil =>
    intro acc
    refine ⟨by simp [sweep_loop], by simp [sweep_loop], ?_⟩
    intro k hk
    exact absurd hk (by simp)
  | cons c t ih =>
    intro acc
    obtain ⟨h1, h2, h3⟩ := ih (acc ++ [(c, sweep_body run c)])
    refine ⟨?_, ?_, ?_⟩
    · show (sweep_loop run (acc ++ [(c, sweep_body run c)]) t).1 = _
      rw [h1]
      simp
    · show ((acc ++ [(c, sweep_body run c)]) ::
          (sweep_loop run (acc ++ [(c, sweep_body run c)]) t).2).length = _
      simp [h2]
    · intro k hk
      cases k with
      | zero => simp [sweep_loop]
      | succ k =>
        show (sweep_loop run (acc ++ [(c, sweep_body run c)]) t).2.getD k [] = _
        rw [h3 k (by simpa using hk)]
        simp

/-- Claim C6: in `sweep_decode_params`, every configuration of the sweep grid
receives exactly one recorded outcome in iteration order, an exception raised
while decoding or scoring a configuration is recorded under that
configuration's parameter key as an error result while the sweep continues
with the remaining configurations, and the results accumulated so far are
persisted after every configuration. -/
theorem sweep_catches_errors_and_persists_each_configuration
    (run : SweepConfig → Except String F1Result)
    (spotmap_values mag_values : List ℚ) :
    (sweep_decode_params run spotmap_values mag_values).1 =
      (sweep_grid spotmap_values mag_values).map
        (fun c => (c, sweep_body run c)) ∧
    (∀ c e, c ∈ sweep_grid spotmap_values mag_values →
      run c = Except.error e →
        (c, SweepOutcome.error e) ∈
          (sweep_decode_params run spotmap_values mag_values).1) ∧
    (sweep_decode_params run spotmap_values mag_values).2.length =
      (sweep_grid spotmap_values mag_values).length ∧
    ∀ k, k < (sweep_grid spotmap_values mag_values).length →
      (sweep_decode_params run spotmap_values mag_values).2.getD k [] =
        ((sweep_grid spotmap_values mag_values).take (k + 1)).map
          (fun c => (c, sweep_body run c)) := by
  obtain ⟨h1, h2, h3⟩ :=
    sweep_loop_spec run (sweep_grid spotmap_values mag_values) []
  rw [List.nil_append] at h1
  refine ⟨h1, ?_, h2, ?_⟩
  · intro c e hc hrun
    rw [sweep_decode_params, h1]
    refine List.mem_map.2 ⟨c, hc, ?_⟩
    rw [sweep_body, hrun]
  · intro k hk
    rw [sweep_decode_params, h3 k hk, List.nil_append]

theorem sweep_catches_errors_and_persists_witness :
    ((⟨1 / 20, 9, 1, 1 / 10⟩ : SweepConfig),
        SweepOutcome.error "bad threshold") ∈
      (sweep_decode_params sweep_run_sample [1 / 10] [1, 2]).1 ∧
    (sweep_decode_params sweep_run_sample [1 / 10] [1, 2]).2.getD 0 [] =
      ((sweep_grid [1 / 10] [1, 2]).take 1).map
        (fun c => (c, sweep_body sweep_run_sample c)) := by
  obtain ⟨-, h2, -, h4⟩ :=
    sweep_catches_errors_and_persists_each_configuration
      sweep_run_sample [1 / 10] [1, 2]
  refine ⟨h2 _ "bad threshold" ?_ ?_, h4 0 ?_⟩
  · simp [sweep_grid]
  · simp [sweep_run_sample]
  · simp [sweep_grid]

/-- Claim C7 counterexample: the zhuang_lab global registration performs a
single `registration.register` pass, so the two-stage coarse-to-fine structure
does not hold for every run of the global registration step. -/
theorem zhuang_global_registration_not_two_stage :
    ¬ two_stage_coarse_to_fine zhuang_lab_registration_passes := by
  rintro ⟨p1, p2, h, -⟩
  simp [zhuang_lab_registration_passes] at h

/-- Claim C7 (amended): the igfl_abberior global registration proceeds in two
sequential stages — a first pass at 9x lateral binning initialized from the
stage-position prior transforms, then a second pass at 3x lateral binning
initialized from the first pass's resulting transform key — while the
zhuang_lab variant performs a single pass at 3x isotropic binning initialized
directly from the stage-position prior. -/
theorem registration_stage_structure_per_example :
    two_stage_coarse_to_fine igfl_abberior_registration_passes ∧
    ∃ p, zhuang_lab_registration_passes = [p] ∧
      p.transform_key = "stage_metadata" ∧
      p.new_transform_key = "translation_registered" ∧
      p.binning_z = 3 ∧ p.binning_y = 3 ∧ p.binning_x = 3 := by
  constructor
  · exact ⟨_, _, rfl, rfl, rfl, rfl, rfl, rfl, rfl⟩
  · exact ⟨_, rfl, rfl, rfl, rfl, rfl, rfl⟩

/-- In any trace that runs `global_register_data` after arbitrary
non-registration events, every tile's locally registered image is loaded
before any cross-tile registration or fusion step. -/
theorem loads_first_in_global (evs : List PipelineEvent) (num_tiles : ℕ)
    (passes : List RegistrationPass)
    (hevs : ∀ e ∈ evs, isRegistrationOrFusion e = false) :
    loads_before_registration (evs ++ global_register_events num_tiles passes)
      num_tiles := by
  refine ⟨evs ++ (List.range num_tiles).map PipelineEvent.load_local_registered_image,
    (passes.map fun p =>
      PipelineEvent.registration_step p.transform_key p.new_transform_key) ++
      ((List.range num_tiles).map PipelineEvent.save_global_coord_xforms) ++
      [PipelineEvent.fuse_tiles, PipelineEvent.save_global_fused_image,
       PipelineEvent.set_stage_flag "GlobalRegistered" true,
       PipelineEvent.set_stage_flag "Fused" true], ?_, ?_, ?_⟩
  · simp [global_register_events, List.append_assoc]
  · intro tile h
    exact List.mem_append_right _ (List.mem_map.2 ⟨tile, List.mem_range.2 h, rfl⟩)
  · intro e he
    rcases List.mem_append.1 he with he | he
    · exact hevs e he
    · obtain ⟨t', -, rfl⟩ := List.mem_map.1 he
      rfl

/-- In any trace that runs `global_register_data` after arbitrary events, the
`GlobalRegistered` and `Fused` flags are set only after fusion completed and
the fused image was saved. -/
theorem flags_last_in_global (evs : List PipelineEvent) (num_tiles : ℕ)
    (passes : List RegistrationPass) :
    flags_after_fusion (evs ++ global_register_events num_tiles passes) := by
  refine ⟨evs ++ ((List.range num_tiles).map
        PipelineEvent.load_local_registered_image) ++
      (passes.map fun p =>
        PipelineEvent.registration_step p.transform_key p.new_transform_key) ++
      ((List.range num_tiles).map PipelineEvent.save_global_coord_xforms) ++
      [PipelineEvent.fuse_tiles, PipelineEvent.save_global_fused_image],
    [PipelineEvent.set_stage_flag "GlobalRegistered" true,
     PipelineEvent.set_stage_flag "Fused" true], ?_, ?_, ?_, ?_, ?_⟩
  · simp [global_register_events, List.append_assoc]
  · simp
  · simp
  · simp
  · simp

/-- In a trace that runs `local_register_data` and then `global_register_data`,
local registration of all tiles completes and the `LocalRegistered` flag is
set before any global-registration step. -/
theorem local_first_in_main (num_tiles : ℕ) (passes : List RegistrationPass) :
    local_before_global
      (local_register_events ++ global_register_events num_tiles passes) := by
  refine ⟨local_register_events, global_register_events num_tiles passes,
    rfl, ?_, ?_, ?_⟩
  · simp [local_register_events]
  · simp [local_register_events]
  · intro e he
    rcases List.mem_cons.1 he with rfl | he
    · rfl
    · rcases List.mem_cons.1 he with rfl | he
      · rfl
      · exact absurd he (List.not_mem_nil e)

/-- Claim C8 counterexample: the zhuang_lab `__main__` as committed invokes
`global_register_data` without running `local_register_data` in the same run,
so the local-before-global barrier property fails for that pipeline run. -/
theorem zhuang_run_lacks_local_registration_barrier :
    ¬ pipeline_run_ordering (zhuang_lab_main 1) 1 := by
  rintro ⟨⟨pre, post, ht, hmem, -, -⟩, -, -⟩
  have hmem' : PipelineEvent.register_all_tiles ∈ zhuang_lab_main 1 := by
    rw [ht]
    exact List.mem_append.2 (Or.inl hmem)
  revert hmem'
  simp [zhuang_lab_main, global_register_events,
    zhuang_lab_registration_passes]

/-- Claim C8 (amended): in the igfl_abberior pipeline run, local registration
of all tiles completes (with the `LocalRegistered` flag set) before global
registration starts, every tile's locally registered image is loaded before
any cross-tile registration or fusion, and the `GlobalRegistered` and `Fused`
flags are set only after fusion completes; the zhuang_lab run satisfies the
latter two properties but invokes global registration without running local
registration in the same run (its data arrives pre-registered). -/
theorem pipeline_ordering_per_example (n : ℕ) :
    pipeline_run_ordering (igfl_abberior_main n) n ∧
    loads_before_registration (zhuang_lab_main n) n ∧
    flags_after_fusion (zhuang_lab_main n) := by
  have hlocal : ∀ e ∈ local_register_events, isRegistrationOrFusion e = false := by
    intro e he
    rcases List.mem_cons.1 he with rfl | he
    · rfl
    · rcases List.mem_cons.1 he with rfl | he
      · rfl
      · exact absurd he (List.not_mem_nil e)
  refine ⟨⟨local_first_in_main n igfl_abberior_registration_passes,
    loads_first_in_global local_register_events n
      igfl_abberior_registration_passes hlocal,
    flags_last_in_global local_register_events n
      igfl_abberior_registration_passes⟩, ?_, ?_⟩
  · have h := loads_first_in_global [] n zhuang_lab_registration_passes
      (by intro e he; exact absurd he (List.not_mem_nil e))
    rw [List.nil_append] at h
    exact h
  · have h := flags_last_in_global [] n zhuang_lab_registration_passes
    rw [List.nil_append] at h
    exact h

/-- Claim C9: every ground-truth coordinate read from the tabular file is
converted from voxel index to microns by multiplying its `Z`, `Y`, `X`
components by the corresponding components of the datastore's
`voxel_size_zyx_um`, in that axis order, and ground-truth gene labels are
mapped through the parsed codebook's gene-id list before being handed to the
evaluation matching. -/
theorem gt_conversion_and_label_mapping
    (gene_ids : List ℕ) (voxel : Coord) (rows : List GroundTruthRow) :
    prepare_gt_coords voxel rows =
      rows.map (fun r =>
        ⟨r.gt_z * voxel.z, r.gt_y * voxel.y, r.gt_x * voxel.x⟩) ∧
    prepare_gt_gene_ids gene_ids rows =
      rows.map (fun r => gene_ids.getD r.gene_label 0) ∧
    ∀ qCoords qGenes radius,
      calculate_F1 gene_ids voxel qCoords qGenes rows radius =
        calculate_F1_with_radius qCoords qGenes
          (rows.map fun r =>
            ⟨r.gt_z * voxel.z, r.gt_y * voxel.y, r.gt_x * voxel.x⟩)
          (rows.map fun r => gene_ids.getD r.gene_label 0) radius := by
  have hc : prepare_gt_coords voxel rows =
      rows.map (fun r =>
        ⟨r.gt_z * voxel.z, r.gt_y * voxel.y, r.gt_x * voxel.x⟩) := by
    simp [prepare_gt_coords, add_offset, scale_column_x, scale_column_y,
      scale_column_z, extract_gt_coords, List.map_map, Function.comp]
  refine ⟨hc, rfl, ?_⟩
  intro qCoords qGenes radius
  rw [calculate_F1, hc]
  rfl

end Merfish3D
